import Mathlib

/-!
Verification of the adb-tool core parsing/streaming layer.

Shallow embedding of the repository's TypeScript sources:
* `src/src-electron/logcat.ts` — the logcat `threadtime` line tokenizer
  (`parseLogcatLine`), the per-line consumption handler of the stream
  supervisor, and the `startStream` / `stopStream` registry state machine.
* `src/src-electron/apk-parser.ts` — the minimal ZIP central-directory
  reader (`readZipEntry`) and the Android binary-XML package-name
  extractor (`parsePackageName`, `extractPackageName`).

Modelling conventions:
* JavaScript strings are `List Char`; JavaScript whitespace (as used by
  `trim`, `trimStart` and the `\s+` split regex) is the `isWs` predicate.
* Node `Buffer`s are `List Nat` of byte values; `buf.readUInt32LE` /
  `buf.readUInt16LE` throw a `RangeError` when out of bounds, which is
  modelled by `Except Unit`; plain element access `buf[i]` yields
  `undefined` (which every use-site treats as `0`), modelled by `getD 0`;
  `buf.subarray` clamps its bounds, modelled by `drop`/`take`.
* `inflateRawSync` (an external zlib primitive that may throw) is an
  explicit function parameter of type `List Nat → Except Unit (List Nat)`.
* The mutable `activeStreams` map keyed by device serial is explicit
  state: a `List (String × Proc)` association list threaded through
  `startStream` / `stopStream`; the handle returned by `spawn` is an
  input.  At this call site `spawn` never throws synchronously: when the
  binary cannot be spawned it still returns a `ChildProcess` handle whose
  `pid` is `undefined` (hence `proc.pid ?? 0` in the source) and reports
  the failure later through an asynchronous `error` event, so a failed
  spawn is modelled as a handle with `pid = none`.
-/

namespace AdbTool

/-! ### JavaScript string primitives -/

/-- JavaScript whitespace, as recognised by `String.prototype.trim` and the
`\s` regex class (ASCII whitespace plus NBSP, BOM and the line separators). -/
def isWs (c : Char) : Bool :=
  c = ' ' || c = '\t' || c = '\n' || c = '\r' || c = '\x0b' || c = '\x0c' ||
  c = '\u00A0' || c = '\u2028' || c = '\u2029' || c = '\uFEFF'

/-- `String.prototype.trimStart`. -/
def trimStart (l : List Char) : List Char := l.dropWhile isWs

/-- `String.prototype.trimEnd`. -/
def trimEnd (l : List Char) : List Char := (l.reverse.dropWhile isWs).reverse

/-- `String.prototype.trim`. -/
def trim (l : List Char) : List Char := trimEnd (trimStart l)

/-- One step of `split(/\s+/)`: fuelled recursion (the fuel is an upper
bound on the recursion depth; `length` always suffices, see `splitWs`). -/
def splitWsFuel : Nat → List Char → List (List Char)
  | 0, s => [s]
  | fuel + 1, s =>
    let w := s.takeWhile (fun c => !isWs c)
    match s.drop w.length with
    | [] => [w]
    | r => w :: splitWsFuel fuel (r.dropWhile isWs)

/-- JavaScript `s.split(/\s+/)`: splits on maximal whitespace runs; a
leading run contributes an empty first field and a trailing run an empty
last field, and the empty string yields one empty field. -/
def splitWs (s : List Char) : List (List Char) := splitWsFuel s.length s

/-- JavaScript `s.indexOf(": ")`: index of the first occurrence of the
two-character substring `": "`, or `none` (JS returns `-1`). -/
def findColonSpace : List Char → Option Nat
  | [] => none
  | c :: rest =>
    if c = ':' ∧ rest.head? = some ' ' then some 0
    else (findColonSpace rest).map (· + 1)

/-! ### The `LogcatLine` record (src/src/types.ts shape used by logcat.ts) -/

structure LogcatLine where
  timestamp : List Char
  pid : List Char
  tid : List Char
  level : List Char
  tag : List Char
  message : List Char
  raw : List Char
deriving DecidableEq, Repr

/-- `VALID_LEVELS` from logcat.ts line 10. -/
def validLevels : List (List Char) :=
  [['V'], ['D'], ['I'], ['W'], ['E'], ['F'], ['S']]

/-! ### Stages of `parseLogcatLine` (logcat.ts lines 16–73)

Each `let`-bound intermediate of the source is lambda-lifted into a
function of the trimmed line `t` (the source computes every field from
`trimmed`; only the final `raw` field uses the original `line`). -/

/-- Line 32: `rest = trimmed.slice(18).trimStart()`. -/
def restOfT (t : List Char) : List Char := trimStart (t.drop 18)

/-- Line 38: `pid = parts[0]` where `parts = rest.split(/\s+/)`. -/
def pidOfT (t : List Char) : List Char := (splitWs (restOfT t)).headD []

/-- Line 41: `afterPid = rest.slice(parts[0].length).trimStart()`. -/
def afterPidOfT (t : List Char) : List Char :=
  trimStart ((restOfT t).drop (pidOfT t).length)

/-- Line 45: `tid = parts2[0]` where `parts2 = afterPid.split(/\s+/)`. -/
def tidOfT (t : List Char) : List Char := (splitWs (afterPidOfT t)).headD []

/-- Line 47: `afterTid = afterPid.slice(parts2[0].length).trimStart()`. -/
def afterTidOfT (t : List Char) : List Char :=
  trimStart ((afterPidOfT t).drop (tidOfT t).length)

/-- Line 51: `level = parts3[0]` where `parts3 = afterTid.split(/\s+/)`. -/
def levelOfT (t : List Char) : List Char := (splitWs (afterTidOfT t)).headD []

/-- Lines 54–55: `afterLevel` is the rest after the level when `parts3`
has more than one field, else the empty string. -/
def afterLevelOfT (t : List Char) : List Char :=
  if 1 < (splitWs (afterTidOfT t)).length then
    trimStart ((afterTidOfT t).drop (levelOfT t).length)
  else []

/-- Lines 57–70: split `afterLevel` into tag and message: at the first
`": "` if present; else, on a trailing `":"`, tag before it and empty
message; else the whole remainder as tag with empty message. -/
def tagMsgOfT (t : List Char) : List Char × List Char :=
  match findColonSpace (afterLevelOfT t) with
  | some p =>
    (trim ((afterLevelOfT t).take p), (afterLevelOfT t).drop (p + 2))
  | none =>
    if (afterLevelOfT t).getLast? = some ':' then
      (trim (afterLevelOfT t).dropLast, [])
    else (trim (afterLevelOfT t), [])

/-- logcat.ts lines 16–73, `parseLogcatLine`: tokenize one line of
`adb logcat -v threadtime` output, or reject it with `null`. -/
def parseLogcatLine (line : List Char) : Option LogcatLine :=
  if (trim line).length < 20 then none
  else if ¬((trim line).get? 2 = some '-' ∧ (trim line).get? 5 = some ' ' ∧
            (trim line).get? 8 = some ':' ∧ (trim line).get? 11 = some ':' ∧
            (trim line).get? 14 = some '.') then none
  else if (splitWs (restOfT (trim line))).length < 4 then none
  else if (splitWs (afterPidOfT (trim line))).length < 3 then none
  else if (splitWs (afterTidOfT (trim line))).length = 0 then none
  else if ¬(levelOfT (trim line) ∈ validLevels) then none
  else
    some { timestamp := (trim line).take 18
           pid := pidOfT (trim line)
           tid := tidOfT (trim line)
           level := levelOfT (trim line)
           tag := (tagMsgOfT (trim line)).1
           message := (tagMsgOfT (trim line)).2
           raw := line }

/-! ### Logcat stream supervisor (logcat.ts lines 116–194)

The mutable module-level `activeStreams : Map<string, ActiveStream>` is
embedded as an explicit association-list state threaded through the
operations; success/failure of a call is an `Except` result returned next
to the new state (an `error` result leaves the registry untouched, as a
thrown JS exception does).  The handle produced by `spawn` — an external
effect — is an input to `startStream`; `spawn` does not throw
synchronously at this call site (a spawn failure yields a handle with no
pid and an asynchronous `error` event, for which lines 122–178 install no
listener).  File-system effects (the append-mode log file) do not
influence the registry state machine and are not part of the registry
model; the per-line consumption handler is `handleLine` below. -/

/-- A child-process handle; `pid` is `none` when the handle has no pid —
in particular when the binary could not be spawned (source:
`proc.pid ?? 0`). -/
structure Proc where
  pid : Option Nat
deriving DecidableEq, Repr

/-- The errors `startStream` / `stopStream` can throw (lines 127, 183). -/
inductive StreamErr where
  | alreadyStreaming
  | notStreaming
deriving DecidableEq, Repr

/-- The termination signal sent by `stopStream` (line 185). -/
inductive Signal where
  | sigterm
deriving DecidableEq, Repr

/-- An observable subprocess action emitted by a supervisor operation. -/
inductive Action where
  | kill (p : Proc) (s : Signal)
deriving DecidableEq, Repr

/-- The `activeStreams` registry: at most one entry per serial (looked up
with `List.lookup`, erased everywhere like `Map.delete`). -/
abbrev Registry := List (String × Proc)

/-- `Map.delete`: remove the entry for `serial`. -/
def eraseEntry (st : Registry) (serial : String) : Registry :=
  st.filter (fun e => e.1 ≠ serial)

/-- logcat.ts lines 122–142, `startStream` (registry state machine): throw
`AlreadyStreamingError` if a stream is active for `serial`; otherwise
call `spawn` — which always hands back a process handle, pid-less when
the binary could not be spawned — register the stream for `serial`
unconditionally, and return `proc.pid ?? 0`. -/
def startStream (st : Registry) (serial : String) (proc : Proc) :
    Registry × Except StreamErr Nat :=
  if (List.lookup serial st).isSome then (st, .error .alreadyStreaming)
  else ((serial, proc) :: st, .ok (proc.pid.getD 0))

/-- logcat.ts lines 180–187, `stopStream`: throw `NotStreamingError` if no
stream is active for `serial`; otherwise send SIGTERM to the subprocess
and remove the registry entry, without waiting for process exit. -/
def stopStream (st : Registry) (serial : String) :
    Registry × Except StreamErr (List Action) :=
  match List.lookup serial st with
  | none => (st, .error .notStreaming)
  | some p => (eraseEntry st serial, .ok [.kill p .sigterm])

/-- logcat.ts lines 171–175, the `close` handler: on process exit the
serial is removed from the registry (log-file writes omitted). -/
def handleExit (st : Registry) (serial : String) : Registry :=
  eraseEntry st serial

/-! ### Per-line consumption handler (logcat.ts lines 147–165) -/

/-- The best-effort record built for a non-blank line that fails
tokenization (lines 154–162): only `message` and `raw` carry the line. -/
def bestEffortLine (line : List Char) : LogcatLine :=
  { timestamp := [], pid := [], tid := [], level := [], tag := [],
    message := line, raw := line }

/-- logcat.ts lines 147–165, the `rl.on("line", ...)` handler: returns the
text appended to the log file and the list of events forwarded to the
renderer for this line (one structured record if tokenization succeeds, a
best-effort record if it fails on a non-blank line, nothing otherwise). -/
def handleLine (line : List Char) : List Char × List LogcatLine :=
  (line ++ ['\n'],
    match parseLogcatLine line with
    | some parsed => [parsed]
    | none => if trim line = [] then [] else [bestEffortLine line])

/-- The events forwarded for a sequence of lines, in input order. -/
def forwardedEvents (lines : List (List Char)) : List LogcatLine :=
  lines.flatMap (fun l => (handleLine l).2)

/-! ### Byte-buffer primitives (Node `Buffer` on a `List Nat` of bytes) -/

/-- `buf[i]`: element access; out of range gives `undefined`, which every
use-site in apk-parser.ts coerces to `0`. -/
def byteAt (buf : List Nat) (i : Nat) : Nat := buf.getD i 0

/-- The value `buf.readUInt16LE(i)` returns when `i + 2 ≤ buf.length`. -/
def readU16LE (buf : List Nat) (i : Nat) : Nat :=
  byteAt buf i + 256 * byteAt buf (i + 1)

/-- The value `buf.readUInt32LE(i)` returns when `i + 4 ≤ buf.length`. -/
def readU32LE (buf : List Nat) (i : Nat) : Nat :=
  byteAt buf i + 256 * byteAt buf (i + 1) + 65536 * byteAt buf (i + 2) +
    16777216 * byteAt buf (i + 3)

/-- `buf.readUInt16LE(i)`: throws a `RangeError` out of bounds. -/
def readU16LE? (buf : List Nat) (i : Nat) : Except Unit Nat :=
  if i + 2 ≤ buf.length then .ok (readU16LE buf i) else .error ()

/-- `buf.readUInt32LE(i)`: throws a `RangeError` out of bounds. -/
def readU32LE? (buf : List Nat) (i : Nat) : Except Unit Nat :=
  if i + 4 ≤ buf.length then .ok (readU32LE buf i) else .error ()

/-- `buf.subarray(start, start + len)` (bounds clamped). -/
def subarray (buf : List Nat) (start len : Nat) : List Nat :=
  (buf.drop start).take len

/-- UTF-8 bytes of an ASCII string (all names compared in apk-parser.ts
are ASCII, where the UTF-8 encoding is the identity on code points). -/
def strBytes (s : String) : List Nat := s.data.map Char.toNat

/-! ### ZIP central-directory reader (apk-parser.ts lines 22–68) -/

/-- The backward EOCD scan (lines 27–32), from index `i` down to `0`:
every read in the scan range is in bounds, so the total `readU32LE` is the
value Node returns. -/
def scanEocd (buf : List Nat) : Nat → Option Nat
  | 0 => if readU32LE buf 0 = 0x06054b50 then some 0 else none
  | i + 1 =>
    if readU32LE buf (i + 1) = 0x06054b50 then some (i + 1)
    else scanEocd buf i

/-- Lines 26–33: find the End-Of-Central-Directory record, scanning
backward from `buf.length - 22`; with fewer than 22 bytes the loop body
never runs (`i` starts negative) and the result is "not found". -/
def findEocd (buf : List Nat) : Option Nat :=
  if 22 ≤ buf.length then scanEocd buf (buf.length - 22) else none

/-- Lines 40–66: the central-directory walk.  `count` is the remaining
entry count, `pos` the current record offset.  Reads that Node would
throw on propagate as `Except.error`. -/
def walkCD (inflate : List Nat → Except Unit (List Nat)) (buf : List Nat)
    (entryName : List Nat) : Nat → Nat → Except Unit (Option (List Nat))
  | 0, _ => .ok none
  | count + 1, pos => do
    let sig ← readU32LE? buf pos
    if sig ≠ 0x02014b50 then pure none
    else do
      let compSize ← readU32LE? buf (pos + 20)
      let nameLen ← readU16LE? buf (pos + 28)
      let extraLen ← readU16LE? buf (pos + 30)
      let commentLen ← readU16LE? buf (pos + 32)
      let localOffset ← readU32LE? buf (pos + 42)
      let name := subarray buf (pos + 46) nameLen
      if name = entryName then do
        let lhSig ← readU32LE? buf localOffset
        if lhSig ≠ 0x04034b50 then pure none
        else do
          let method ← readU16LE? buf (localOffset + 8)
          let lhNameLen ← readU16LE? buf (localOffset + 26)
          let lhExtraLen ← readU16LE? buf (localOffset + 28)
          let dataStart := localOffset + 30 + lhNameLen + lhExtraLen
          let raw := subarray buf dataStart compSize
          if method = 0 then pure (some raw)
          else if method = 8 then do
            let inflated ← inflate raw
            pure (some inflated)
          else pure none
      else
        walkCD inflate buf entryName count
          (pos + 46 + nameLen + extraLen + commentLen)

/-- apk-parser.ts lines 22–68, `readZipEntry` with the file contents
already read into `buf`: locate the EOCD, then walk the central directory
for `entryName`; `inflate` stands for `zlib.inflateRawSync`. -/
def readZipEntry (inflate : List Nat → Except Unit (List Nat))
    (buf : List Nat) (entryName : List Nat) :
    Except Unit (Option (List Nat)) :=
  match findEocd buf with
  | none => .ok none
  | some eocd => do
    let cdOffset ← readU32LE? buf (eocd + 16)
    let cdCount ← readU16LE? buf (eocd + 10)
    walkCD inflate buf entryName cdCount cdOffset

/-! ### Android binary XML parser (apk-parser.ts lines 74–164) -/

/-- Decoded string-pool entries, as the sequences of code units the
source compares against ASCII literals (UTF-8 entries as their bytes,
UTF-16 entries as their 16-bit units). -/
abbrev PoolStr := List Nat

/-- Lines 98–112, the UTF-8 string-pool entry at `off`: skip the 1-or-2
byte character count, read the 1-or-2 byte length, then take that many
bytes (clamped at the buffer end, like `Math.min`).  Element accesses
past the end behave as `0` (see `byteAt`). -/
def utf8Entry (buf : List Nat) (off : Nat) : PoolStr :=
  let p1 := if byteAt buf off &&& 0x80 ≠ 0 then off + 2 else off + 1
  let bc :=
    if byteAt buf p1 &&& 0x80 ≠ 0 then
      ((byteAt buf p1 &&& 0x7f) <<< 8) ||| byteAt buf (p1 + 1)
    else byteAt buf p1
  let p2 :=
    if byteAt buf p1 &&& 0x80 ≠ 0 then p1 + 2 else p1 + 1
  subarray buf p2 (min (p2 + bc) buf.length - p2)

/-- Lines 116–121, the UTF-16 code-unit loop: for `j` below the character
count, push `readU16LE` at `start + j*2` when `idx + 1 < buf.length`,
else skip (the source pushes nothing for out-of-range indices). -/
def utf16Codes (buf : List Nat) (start : Nat) : Nat → Nat → List Nat
  | 0, _ => []
  | n + 1, j =>
    let idx := start + j * 2
    if idx + 1 < buf.length then
      readU16LE buf idx :: utf16Codes buf start n (j + 1)
    else utf16Codes buf start n (j + 1)

/-- Lines 113–121, a UTF-16 string-pool entry at `off`: the 2-byte
character count read (`readU16LE?`, may throw) then the guarded unit
loop. -/
def utf16Entry (buf : List Nat) (off : Nat) : Except Unit PoolStr := do
  let cc ← readU16LE? buf off
  pure (utf16Codes buf (off + 2) cc 0)

/-- Lines 91–123, the string-pool entry loop: `n` entries remain, `i` is
the current index.  An offset at or past the buffer end pushes the empty
string (lines 93–96). -/
def poolLoop (buf : List Nat) (isUtf8 : Bool) (offsetsBase dataBase : Nat) :
    Nat → Nat → Except Unit (List PoolStr)
  | 0, _ => .ok []
  | n + 1, i => do
    let rel ← readU32LE? buf (offsetsBase + i * 4)
    let off := dataBase + rel
    let s ←
      if buf.length ≤ off then pure ([] : PoolStr)
      else if isUtf8 then pure (utf8Entry buf off)
      else utf16Entry buf off
    let rest ← poolLoop buf isUtf8 offsetsBase dataBase n (i + 1)
    pure (s :: rest)

/-- apk-parser.ts lines 82–125, `parseStringPool buf cs`. -/
def parseStringPool (buf : List Nat) (cs : Nat) :
    Except Unit (List PoolStr) := do
  let count ← readU32LE? buf (cs + 8)
  let flags ← readU32LE? buf (cs + 16)
  let stringsStart ← readU32LE? buf (cs + 20)
  let isUtf8 := flags &&& 0x100 ≠ 0
  poolLoop buf isUtf8 (cs + 28) (cs + stringsStart) count 0

/-- `"manifest"` as pool code units. -/
def manifestStr : PoolStr := strBytes "manifest"

/-- `"package"` as pool code units. -/
def packageStr : PoolStr := strBytes "package"

/-- Lines 145–157, the attribute loop of a `manifest` START_ELEMENT chunk
at `pos`: `n` attributes remain, `a` is the current attribute index.  An
attribute record reaching past the buffer breaks the loop; after the loop
(or the break) the source returns `null` without scanning further chunks.
All reads inside the loop are bounds-guarded in the source, so the total
`readU32LE` values are the ones Node returns. -/
def attrLoop (buf : List Nat) (strings : List PoolStr) (pos : Nat) :
    Nat → Nat → Option PoolStr
  | 0, _ => none
  | n + 1, a =>
    if buf.length < pos + 36 + a * 20 + 20 then none
    else
      if readU32LE buf (pos + 36 + a * 20 + 4) < strings.length ∧
         strings.getD (readU32LE buf (pos + 36 + a * 20 + 4)) [] =
           packageStr then
        if readU32LE buf (pos + 36 + a * 20 + 8) < strings.length then
          some (strings.getD (readU32LE buf (pos + 36 + a * 20 + 8)) [])
        else if byteAt buf (pos + 36 + a * 20 + 15) = 3 then
          if readU32LE buf (pos + 36 + a * 20 + 16) < strings.length then
            some (strings.getD (readU32LE buf (pos + 36 + a * 20 + 16)) [])
          else attrLoop buf strings pos n (a + 1)
        else attrLoop buf strings pos n (a + 1)
      else attrLoop buf strings pos n (a + 1)

/-- Lines 135–162, the chunk walk: while `pos + 8 ≤ buf.length` read the
2-byte chunk type and 4-byte chunk size; a size of 0 breaks; a
START_ELEMENT (`0x0102`) fitting 36 bytes whose resolved name is
`"manifest"` is handed to `attrLoop` (returning without scanning further
chunks); every other chunk advances by exactly `size`.  The fuel bounds
the iteration count; since each step advances `pos` by `size ≥ 1`,
`buf.length + 1` suffices (see `parsePackageName`). -/
def walkChunks (buf : List Nat) (strings : List PoolStr) :
    Nat → Nat → Option PoolStr
  | 0, _ => none
  | fuel + 1, pos =>
    if pos + 8 ≤ buf.length then
      if readU32LE buf (pos + 4) = 0 then none
      else if readU16LE buf pos = 0x0102 ∧ pos + 36 ≤ buf.length then
        if readU32LE buf (pos + 20) < strings.length ∧
           strings.getD (readU32LE buf (pos + 20)) [] = manifestStr then
          attrLoop buf strings pos (readU16LE buf (pos + 28)) 0
        else walkChunks buf strings fuel (pos + readU32LE buf (pos + 4))
      else walkChunks buf strings fuel (pos + readU32LE buf (pos + 4))
    else none

/-- apk-parser.ts lines 127–164, `parsePackageName`: header checks (the
container magic read is short-circuited behind `buf.length < 8`, and the
chunk-type and pool-size reads may throw, as in Node), the string pool at
offset 8, then the chunk walk from `8 + spSize`. -/
def parsePackageName (buf : List Nat) : Except Unit (Option PoolStr) :=
  if buf.length < 8 then .ok none
  else do
    let magic ← readU32LE? buf 0
    if magic ≠ 0x00080003 then pure none
    else do
      let chunkType ← readU16LE? buf 8
      if chunkType ≠ 0x0001 then pure none
      else do
        let spSize ← readU32LE? buf 12
        let strings ← parseStringPool buf 8
        pure (walkChunks buf strings (buf.length + 1) (8 + spSize))

/-- `"AndroidManifest.xml"` as entry-name bytes. -/
def androidManifestName : List Nat := strBytes "AndroidManifest.xml"

/-- The body of the `try` block of `extractPackageName` (lines 9–12),
with the APK file contents in `buf`. -/
def innerExtract (inflate : List Nat → Except Unit (List Nat))
    (buf : List Nat) : Except Unit (Option PoolStr) := do
  let manifest ← readZipEntry inflate buf androidManifestName
  match manifest with
  | none => pure none
  | some m => parsePackageName m

/-- apk-parser.ts lines 8–16, `extractPackageName`: the whole pipeline
under `try`/`catch`, every thrown exception collapsed to `null`. -/
def extractPackageName (inflate : List Nat → Except Unit (List Nat))
    (buf : List Nat) : Option PoolStr :=
  match innerExtract inflate buf with
  | .ok v => v
  | .error _ => none

/-! ### Concrete corrupt-archive inputs for the failure classes of §7 -/

/-- A concrete `inflateRawSync` instance that always throws; the theorems
about failure classes never reach inflation, so any instance does. -/
def inflErr : List Nat → Except Unit (List Nat) := fun _ => .error ()

/-- A 22-byte archive that is just an EOCD whose central-directory offset
(100) points far outside the buffer: `readUInt32LE(100)` throws. -/
def zipTruncated : List Nat :=
  [80, 75, 5, 6, 0, 0, 0, 0, 1, 0, 1, 0, 0, 0, 0, 0, 100, 0, 0, 0, 0, 0]

/-- A 26-byte archive with a well-formed EOCD (one entry, central
directory at offset 0) whose central-directory record has a bad magic. -/
def zipBadCDMagic : List Nat :=
  [0, 0, 0, 0] ++
  [80, 75, 5, 6, 0, 0, 0, 0, 1, 0, 1, 0, 0, 0, 0, 0, 0, 0, 0, 0, 0, 0]

/-- A 91-byte archive whose central directory names
`AndroidManifest.xml` but whose local file header (at offset 0) has a bad
magic. -/
def zipBadLHMagic : List Nat :=
  [0, 0, 0, 0] ++ [80, 75, 1, 2] ++ List.replicate 24 0 ++ [19, 0] ++
  List.replicate 16 0 ++ androidManifestName ++
  ([80, 75, 5, 6, 0, 0, 0, 0, 1, 0, 1, 0, 0, 0, 0, 0, 4, 0, 0, 0, 0, 0])

/-- A 117-byte archive whose `AndroidManifest.xml` entry is stored with
compression method 9 (neither stored nor deflate). -/
def zipBadMethod : List Nat :=
  [80, 75, 3, 4] ++ [0, 0, 0, 0] ++ [9, 0] ++ List.replicate 20 0 ++
  [80, 75, 1, 2] ++ List.replicate 24 0 ++ [19, 0] ++
  List.replicate 16 0 ++ androidManifestName ++
  ([80, 75, 5, 6, 0, 0, 0, 0, 1, 0, 1, 0, 0, 0, 0, 0, 30, 0, 0, 0, 0, 0])

/-! ### Spec-side predicates used to state the claims -/

/-- The six structured fields of a `LogcatLine`, without `raw`. -/
def stripRaw (r : LogcatLine) :
    List Char × List Char × List Char × List Char × List Char × List Char :=
  (r.timestamp, r.pid, r.tid, r.level, r.tag, r.message)

/-- The substring `": "` occurs in `l` at index `q`. -/
def isColonSpaceAt (l : List Char) (q : Nat) : Prop :=
  l.get? q = some ':' ∧ l.get? (q + 1) = some ' '

instance (l : List Char) (q : Nat) : Decidable (isColonSpaceAt l q) := by
  unfold isColonSpaceAt
  infer_instance

/-- `l` has no trailing JavaScript whitespace. -/
def noTrailWs (l : List Char) : Prop :=
  ∀ c, l.getLast? = some c → isWs c = false

/-- The remainder after timestamp, pid, tid and level of a raw line. -/
def afterLevelOf (line : List Char) : List Char :=
  afterLevelOfT (trim line)

/-! ## Helper lemmas -/

/-- Trimming never lengthens a string. -/
theorem trim_length_le (l : List Char) : (trim l).length ≤ l.length := by
  unfold trim trimEnd trimStart
  calc ((l.dropWhile isWs).reverse.dropWhile isWs).reverse.length
      ≤ (l.dropWhile isWs).reverse.length := by
        simpa using ((l.dropWhile isWs).reverse.dropWhile_suffix isWs).sublist.length_le
    _ ≤ l.length := by
        simpa using (l.dropWhile_suffix isWs).sublist.length_le

/-- Rejection through the length gate (logcat.ts line 18). -/
theorem parse_none_of_short (line : List Char)
    (h : (trim line).length < 20) : parseLogcatLine line = none := by
  unfold parseLogcatLine
  rw [if_pos h]

/-- Rejection through the timestamp-pattern gate (logcat.ts lines 21–29). -/
theorem parse_none_of_pattern (line : List Char)
    (h : ¬((trim line).get? 2 = some '-' ∧ (trim line).get? 5 = some ' ' ∧
           (trim line).get? 8 = some ':' ∧ (trim line).get? 11 = some ':' ∧
           (trim line).get? 14 = some '.')) : parseLogcatLine line = none := by
  unfold parseLogcatLine
  by_cases hl : (trim line).length < 20
  · rw [if_pos hl]
  · rw [if_neg hl, if_pos h]

/-- Deleting a serial from the registry makes its lookup fail. -/
theorem lookup_eraseEntry (st : Registry) (serial : String) :
    List.lookup serial (eraseEntry st serial) = none := by
  induction st with
  | nil => rfl
  | cons e t ih =>
    obtain ⟨k, v⟩ := e
    by_cases h : k = serial
    · simpa [eraseEntry, List.filter_cons, h] using ih
    · simp only [eraseEntry, List.filter_cons] at ih ⊢
      have hk : (serial == k) = false := by
        simp only [beq_eq_false_iff_ne, ne_eq]
        exact fun hs => h hs.symm
      simp only [h, decide_not, ne_eq, not_false_iff, decide_True, if_true]
      simpa [List.lookup, hk] using ih

/-! ## Claims -/

/-- C1: `parseLogcatLine` applied to the exact input string
`01-15 12:34:56.789  1234  5678 D MyTag   : hello` returns the record
with timestamp `01-15 12:34:56.789`, pid `1234`, tid `5678`, level `D`,
tag `MyTag`, and message `hello` (and the raw line as `raw`). -/
theorem C1_parseLogcatLine_example :
    parseLogcatLine "01-15 12:34:56.789  1234  5678 D MyTag   : hello".data =
      some { timestamp := "01-15 12:34:56.789".data
             pid := "1234".data
             tid := "5678".data
             level := "D".data
             tag := "MyTag".data
             message := "hello".data
             raw := "01-15 12:34:56.789  1234  5678 D MyTag   : hello".data } := by
  decide

/-- C3: a second `startStream` for a serial with an active stream fails
with `AlreadyStreamingError` and leaves the registry exactly as it was
(nothing is replaced, merged or queued); for a serial with no active
stream the call never produces `AlreadyStreamingError`. -/
theorem C3_startStream_already_streaming :
    ∀ (st : Registry) (serial : String) (proc : Proc),
      ((List.lookup serial st).isSome →
        startStream st serial proc = (st, .error .alreadyStreaming)) ∧
      (List.lookup serial st = none →
        (startStream st serial proc).2 ≠
          Except.error StreamErr.alreadyStreaming) := by
  intro st serial proc
  constructor
  · intro h
    simp [startStream, h]
  · intro h
    simp [startStream, h]

/-- C3 witness: with a stream registered for `emulator-5554`, a second
`startStream` for it (with a freshly spawned handle) fails with
`AlreadyStreamingError` and leaves the registry untouched. -/
theorem C3_witness :
    startStream [("emulator-5554", ⟨some 7⟩)] "emulator-5554" ⟨some 9⟩ =
      ([("emulator-5554", ⟨some 7⟩)], .error .alreadyStreaming) :=
  (C3_startStream_already_streaming [("emulator-5554", ⟨some 7⟩)]
      "emulator-5554" ⟨some 9⟩).1 (by decide)

/-- C4: `stopStream` fails with `NotStreamingError` exactly when no
stream is active for the serial; when one is active it returns the kill
action (SIGTERM) together with the registry with the entry removed — it
does not wait for exit — so a subsequent `startStream` for the same
serial cannot fail with `AlreadyStreamingError`. -/
theorem C4_stopStream_spec :
    ∀ (st : Registry) (serial : String),
      ((stopStream st serial).2 = Except.error StreamErr.notStreaming ↔
        List.lookup serial st = none) ∧
      (∀ p, List.lookup serial st = some p →
        stopStream st serial =
          (eraseEntry st serial, .ok [.kill p .sigterm]) ∧
        List.lookup serial (eraseEntry st serial) = none ∧
        ∀ proc : Proc,
          (startStream (eraseEntry st serial) serial proc).2 ≠
            Except.error StreamErr.alreadyStreaming) := by
  intro st serial
  constructor
  · cases h : List.lookup serial st <;> simp [stopStream, h]
  · intro p hp
    refine ⟨by simp [stopStream, hp], lookup_eraseEntry st serial, ?_⟩
    intro proc
    simp [startStream, lookup_eraseEntry st serial]

/-- C4 witness: stopping the only registered stream sends SIGTERM and
empties the registry entry for that serial. -/
theorem C4_witness :
    stopStream [("dev1", ⟨some 3⟩)] "dev1" =
      (eraseEntry [("dev1", ⟨some 3⟩)] "dev1",
        .ok [.kill ⟨some 3⟩ .sigterm]) :=
  ((C4_stopStream_spec [("dev1", ⟨some 3⟩)] "dev1").2 ⟨some 3⟩ (by decide)).1

/-- C9 (code bug): logcat.ts 139–142 has no try/catch and installs no
`error` listener, and at this call site `spawn` does not throw
synchronously when the adb binary cannot be run — it returns a pid-less
handle and reports the failure through an asynchronous `error` event;
line 142 then registers the serial regardless.  Evaluating the embedded
`startStream` on an empty registry with the pid-less handle of a failed
spawn: the call surfaces no failure (it returns `proc.pid ?? 0 = 0`) and
the registry does contain an entry for the serial after the call —
contradicting the claim on both counts. -/
theorem C9_spawn_registers_entry :
    startStream [] "emulator-5554" ⟨none⟩ =
      ([("emulator-5554", ⟨none⟩)], .ok 0) ∧
    List.lookup "emulator-5554"
      (startStream [] "emulator-5554" ⟨none⟩).1 = some ⟨none⟩ :=
  ⟨rfl, by decide⟩

/-- C5 counterexample: the blank line (readline delivers empty lines) is
fed to the per-line handler but produces zero forwarded events, refuting
"every line … produces exactly one forwarded event". -/
theorem C5_counterexample : (handleLine []).2 = [] := by decide

/-- C5 (amended): every non-blank line produces exactly one forwarded
event, in input order — the structured record when tokenization succeeds,
otherwise the best-effort record whose `message` and `raw` hold the line
and whose other fields are empty — while blank (whitespace-only) lines
produce no event. -/
theorem C5_line_forwarding :
    (∀ line : List Char,
      (∀ r, parseLogcatLine line = some r → (handleLine line).2 = [r]) ∧
      (parseLogcatLine line = none → trim line ≠ [] →
        (handleLine line).2 = [bestEffortLine line]) ∧
      (trim line = [] → (handleLine line).2 = []) ∧
      (bestEffortLine line).message = line ∧
      (bestEffortLine line).raw = line ∧
      (bestEffortLine line).timestamp = [] ∧
      (bestEffortLine line).pid = [] ∧ (bestEffortLine line).tid = [] ∧
      (bestEffortLine line).level = [] ∧ (bestEffortLine line).tag = []) ∧
    ∀ ls₁ ls₂ : List (List Char),
      forwardedEvents (ls₁ ++ ls₂) =
        forwardedEvents ls₁ ++ forwardedEvents ls₂ := by
  constructor
  · intro line
    refine ⟨?_, ?_, ?_, rfl, rfl, rfl, rfl, rfl, rfl, rfl⟩
    · intro r h
      simp [handleLine, h]
    · intro h hne
      simp [handleLine, h, hne]
    · intro h
      have hnone : parseLogcatLine line = none :=
        parse_none_of_short line (by simp [h])
      simp [handleLine, hnone, h]
  · intro ls₁ ls₂
    simp [forwardedEvents, List.flatMap_append]

/-- C5 witness: the non-blank untokenizable line `hello` is forwarded as
exactly one best-effort event. -/
theorem C5_witness : (handleLine "hello".data).2 = [bestEffortLine "hello".data] :=
  ((C5_line_forwarding.1 "hello".data).2.1 (by decide) (by decide))

/-- C7 counterexample: a line with one leading space has no `-` at
position 2 of the raw line — so by the claim it should be rejected — yet
`parseLogcatLine` accepts it (the pattern is checked on the trimmed
line). -/
theorem C7_counterexample :
    " 01-15 12:34:56.789  1234  5678 D MyTag: hi".data.get? 2 ≠ some '-' ∧
    parseLogcatLine " 01-15 12:34:56.789  1234  5678 D MyTag: hi".data ≠
      none := by
  decide

/-- C7 (amended): `parseLogcatLine` returns none for every line whose
whitespace-trimmed form is shorter than 20 characters or lacks the
characters `-`, space, `:`, `:`, `.` at positions 2, 5, 8, 11, 14 of the
trimmed line (a raw line shorter than 20 characters is therefore also
rejected, as trimming never lengthens it); in particular the banner line,
the empty string and `not a logcat line` all yield none. -/
theorem C7_validation_gate :
    (∀ line : List Char,
      ((trim line).length < 20 ∨ (trim line).get? 2 ≠ some '-' ∨
       (trim line).get? 5 ≠ some ' ' ∨ (trim line).get? 8 ≠ some ':' ∨
       (trim line).get? 11 ≠ some ':' ∨ (trim line).get? 14 ≠ some '.') →
      parseLogcatLine line = none) ∧
    (∀ line : List Char, line.length < 20 → parseLogcatLine line = none) ∧
    parseLogcatLine "--------- beginning of main".data = none ∧
    parseLogcatLine [] = none ∧
    parseLogcatLine "not a logcat line".data = none := by
  refine ⟨?_, ?_, by decide, by decide, by decide⟩
  · intro line h
    rcases h with h | h | h | h | h | h
    · exact parse_none_of_short line h
    all_goals exact parse_none_of_pattern line (by tauto)
  · intro line h
    exact parse_none_of_short line (lt_of_le_of_lt (trim_length_le line) h)

/-- C7 witness: the banner line fails the trimmed-pattern gate (space
expected at position 5 is `-`), so the amended gate rejects it. -/
theorem C7_witness :
    parseLogcatLine "--------- beginning of main".data = none :=
  C7_validation_gate.1 "--------- beginning of main".data (by decide)

/-- C10: all structured fields of `parseLogcatLine` are computed from the
whitespace-trimmed line while `raw` is the exact original input: inputs
with equal trims are both rejected or both accepted with equal structured
fields, `raw` always equals the untrimmed input, and the 20-character
minimum-length gate is applied to the trimmed line. -/
theorem C10_trim_invariance :
    (∀ l₁ l₂ : List Char, trim l₁ = trim l₂ →
      (parseLogcatLine l₁).map stripRaw = (parseLogcatLine l₂).map stripRaw) ∧
    (∀ (l : List Char) (r : LogcatLine),
      parseLogcatLine l = some r → r.raw = l) ∧
    (∀ l : List Char, (trim l).length < 20 → parseLogcatLine l = none) := by
  refine ⟨?_, ?_, fun l h => parse_none_of_short l h⟩
  · intro l₁ l₂ h
    unfold parseLogcatLine
    rw [h]
    split_ifs <;> simp [stripRaw]
  · intro l r h
    unfold parseLogcatLine at h
    split_ifs at h
    injection h with h
    rw [← h]

/-- C10 witness: padding the C1 line with surrounding whitespace changes
none of the structured fields. -/
theorem C10_witness :
    (parseLogcatLine "  01-15 12:34:56.789  1234  5678 D MyTag   : hello \t".data).map
        stripRaw =
      (parseLogcatLine "01-15 12:34:56.789  1234  5678 D MyTag   : hello".data).map
        stripRaw :=
  C10_trim_invariance.1 _ _ (by decide)

/-- A small accepted line used to instantiate the tag/message-split
theorem: its remainder after the level is `T: m`. -/
def c6WLine : List Char := "01-15 12:34:56.789 1 2 D T: m".data

/-- The record `parseLogcatLine` produces for `c6WLine`. -/
def c6WRec : LogcatLine :=
  { timestamp := "01-15 12:34:56.789".data, pid := "1".data,
    tid := "2".data, level := "D".data, tag := "T".data,
    message := "m".data, raw := c6WLine }

/-! ## Lemmas for the tag/message split (C6) -/

/-- `findColonSpace` really returns the FIRST occurrence of `": "`. -/
theorem findColonSpace_some (l : List Char) (p : Nat)
    (h : findColonSpace l = some p) :
    isColonSpaceAt l p ∧ ∀ q < p, ¬ isColonSpaceAt l q := by
  induction l generalizing p with
  | nil => simp [findColonSpace] at h
  | cons c rest ih =>
    unfold findColonSpace at h
    by_cases hc : c = ':' ∧ rest.head? = some ' '
    · rw [if_pos hc] at h
      injection h with h
      subst h
      refine ⟨⟨by simp [hc.1], ?_⟩, by omega⟩
      show rest.get? 0 = some ' '
      rw [List.get?_zero]
      exact hc.2
    · rw [if_neg hc] at h
      cases hrec : findColonSpace rest with
      | none => rw [hrec] at h; simp at h
      | some p' =>
        rw [hrec] at h
        simp only [Option.map_some'] at h
        injection h with h
        subst h
        obtain ⟨h1, h2⟩ := ih p' hrec
        refine ⟨h1, ?_⟩
        intro q hq
        cases q with
        | zero =>
          rintro ⟨ha, hb⟩
          refine hc ⟨?_, ?_⟩
          · injection ha
          · rw [← List.get?_zero]
            exact hb
        | succ q' => exact h2 q' (by omega)

/-- When `findColonSpace` fails there is no occurrence of `": "`. -/
theorem findColonSpace_none (l : List Char)
    (h : findColonSpace l = none) : ∀ q, ¬ isColonSpaceAt l q := by
  induction l with
  | nil => rintro q ⟨ha, hb⟩; simp at ha
  | cons c rest ih =>
    unfold findColonSpace at h
    by_cases hc : c = ':' ∧ rest.head? = some ' '
    · rw [if_pos hc] at h; simp at h
    · rw [if_neg hc] at h
      simp only [Option.map_eq_none'] at h
      intro q
      cases q with
      | zero =>
        rintro ⟨ha, hb⟩
        refine hc ⟨?_, ?_⟩
        · injection ha
        · rw [← List.get?_zero]
          exact hb
      | succ q' => exact ih h q'

/-- `trimStart` is idempotent. -/
theorem trimStart_idem (l : List Char) :
    trimStart (trimStart l) = trimStart l := by
  unfold trimStart
  induction l with
  | nil => rfl
  | cons c rest ih =>
    cases hc : isWs c <;> simp [List.dropWhile_cons, hc, ih]

/-- A suffix of a string with no trailing whitespace has none either. -/
theorem noTrailWs_of_suffix {l₁ l₂ : List Char} (h : l₁ <:+ l₂)
    (h₂ : noTrailWs l₂) : noTrailWs l₁ := by
  intro c hc
  obtain ⟨t, rfl⟩ := h
  have hne : l₁ ≠ [] := by rintro rfl; simp at hc
  apply h₂ c
  rw [List.getLast?_append_of_ne_nil t hne]
  exact hc

/-- `trimEnd` leaves no trailing whitespace. -/
theorem noTrailWs_trimEnd (l : List Char) : noTrailWs (trimEnd l) := by
  intro c hc
  unfold trimEnd at hc
  rw [← List.head?_reverse, List.reverse_reverse] at hc
  have := List.head?_dropWhile_not isWs l.reverse
  rw [hc] at this
  exact this

/-- The fully trimmed line has no trailing whitespace. -/
theorem noTrailWs_trim (l : List Char) : noTrailWs (trim l) :=
  noTrailWs_trimEnd _

/-- Dropping a prefix then trimming the start preserves the absence of
trailing whitespace. -/
theorem noTrailWs_trimStart_drop (l : List Char) (n : Nat)
    (h : noTrailWs l) : noTrailWs (trimStart (l.drop n)) :=
  noTrailWs_of_suffix (List.dropWhile_suffix isWs)
    (noTrailWs_of_suffix (List.drop_suffix n l) h)

/-- `afterLevel` starts trimmed. -/
theorem trimStart_afterLevelOfT (t : List Char) :
    trimStart (afterLevelOfT t) = afterLevelOfT t := by
  unfold afterLevelOfT
  split_ifs
  · exact trimStart_idem _
  · rfl

/-- `afterLevel` of a trimmed line carries no trailing whitespace. -/
theorem noTrailWs_afterLevelOfT (t : List Char) (h : noTrailWs t) :
    noTrailWs (afterLevelOfT t) := by
  unfold afterLevelOfT
  split_ifs
  · refine noTrailWs_trimStart_drop _ _ ?_
    unfold afterTidOfT
    refine noTrailWs_trimStart_drop _ _ ?_
    unfold afterPidOfT
    refine noTrailWs_trimStart_drop _ _ ?_
    unfold restOfT
    exact noTrailWs_trimStart_drop _ _ h
  · intro c hc; simp at hc

/-- `trimEnd` of a string with no trailing whitespace is itself. -/
theorem trimEnd_eq_self {l : List Char} (h : noTrailWs l) :
    trimEnd l = l := by
  unfold trimEnd
  have hdw : l.reverse.dropWhile isWs = l.reverse := by
    cases hr : l.reverse with
    | nil => simp
    | cons c rest =>
      rw [List.dropWhile_cons]
      have hc : isWs c = false := by
        apply h
        rw [← List.head?_reverse, hr]
        rfl
      simp [hc]
  rw [hdw, List.reverse_reverse]

/-- The remainder after the level is already fully trimmed. -/
theorem trim_afterLevelOf (line : List Char) :
    trim (afterLevelOf line) = afterLevelOf line := by
  unfold trim afterLevelOf
  rw [trimStart_afterLevelOfT]
  exact trimEnd_eq_self (noTrailWs_afterLevelOfT _ (noTrailWs_trim line))

/-- Evaluation of `tagMsgOfT` when `": "` occurs. -/
theorem tagMsg_some (line : List Char) (p : Nat)
    (hf : findColonSpace (afterLevelOf line) = some p) :
    tagMsgOfT (trim line) =
      (trim ((afterLevelOf line).take p),
        (afterLevelOf line).drop (p + 2)) := by
  unfold afterLevelOf at hf ⊢
  unfold tagMsgOfT
  rw [hf]

/-- Evaluation of `tagMsgOfT` without `": "` but with a trailing colon. -/
theorem tagMsg_none_colon (line : List Char)
    (hf : findColonSpace (afterLevelOf line) = none)
    (hl : (afterLevelOf line).getLast? = some ':') :
    tagMsgOfT (trim line) = (trim (afterLevelOf line).dropLast, []) := by
  unfold afterLevelOf at hf hl ⊢
  unfold tagMsgOfT
  rw [hf, if_pos hl]

/-- Evaluation of `tagMsgOfT` without `": "` or a trailing colon. -/
theorem tagMsg_none_other (line : List Char)
    (hf : findColonSpace (afterLevelOf line) = none)
    (hl : ¬(afterLevelOf line).getLast? = some ':') :
    tagMsgOfT (trim line) = (trim (afterLevelOf line), []) := by
  unfold afterLevelOf at hf hl ⊢
  unfold tagMsgOfT
  rw [hf, if_neg hl]

/-- C6 counterexample: for the accepted line
`01-15 12:34:56.789  1  2 D Tag :` the remainder after the level is
`Tag :`, which has no `": "` and ends with `:`; the text before the
trailing colon is `Tag ` (with a space), but the produced tag is the
trimmed `Tag` — refuting the claim that the text before the trailing
colon is the tag. -/
theorem C6_counterexample :
    findColonSpace (afterLevelOf "01-15 12:34:56.789  1  2 D Tag :".data) =
      none ∧
    (afterLevelOf "01-15 12:34:56.789  1  2 D Tag :".data).getLast? =
      some ':' ∧
    (afterLevelOf "01-15 12:34:56.789  1  2 D Tag :".data).dropLast =
      "Tag ".data ∧
    (parseLogcatLine "01-15 12:34:56.789  1  2 D Tag :".data).map
        LogcatLine.tag = some "Tag".data ∧
    "Tag".data ≠ "Tag ".data := by
  decide

/-- C6 (amended): for every accepted line, writing `A` for the remainder
after timestamp, pid, tid and level: if `": "` occurs in `A`, the split
is at its first occurrence, the tag being the whitespace-trimmed text
before it and the message everything after it (which may itself contain
colons); if `": "` is absent but `A` ends with `:`, the tag is the
whitespace-trimmed text before the trailing colon and the message is
empty; otherwise the tag is the whole remainder `A` (already fully
trimmed) and the message is empty.  The ActivityManager example shows a
message keeping its interior colons. -/
theorem C6_tag_message_split :
    (∀ (line : List Char) (r : LogcatLine), parseLogcatLine line = some r →
      (∃ p, isColonSpaceAt (afterLevelOf line) p ∧
        (∀ q < p, ¬ isColonSpaceAt (afterLevelOf line) q) ∧
        r.tag = trim ((afterLevelOf line).take p) ∧
        r.message = (afterLevelOf line).drop (p + 2)) ∨
      ((∀ q, ¬ isColonSpaceAt (afterLevelOf line) q) ∧
        (afterLevelOf line).getLast? = some ':' ∧
        r.tag = trim (afterLevelOf line).dropLast ∧ r.message = []) ∨
      ((∀ q, ¬ isColonSpaceAt (afterLevelOf line) q) ∧
        (afterLevelOf line).getLast? ≠ some ':' ∧
        r.tag = afterLevelOf line ∧ r.message = [])) ∧
    parseLogcatLine "03-10 14:22:33.456  1000  2000 I ActivityManager: Start proc 1234:com.example/u0a12 for activity".data =
      some { timestamp := "03-10 14:22:33.456".data, pid := "1000".data,
             tid := "2000".data, level := "I".data,
             tag := "ActivityManager".data,
             message := "Start proc 1234:com.example/u0a12 for activity".data,
             raw := "03-10 14:22:33.456  1000  2000 I ActivityManager: Start proc 1234:com.example/u0a12 for activity".data } := by
  refine ⟨?_, by decide⟩
  intro line r h
  have htag : r.tag = (tagMsgOfT (trim line)).1 ∧
      r.message = (tagMsgOfT (trim line)).2 := by
    unfold parseLogcatLine at h
    split_ifs at h
    injection h with h
    exact ⟨by rw [← h], by rw [← h]⟩
  cases hf : findColonSpace (afterLevelOf line) with
  | some p =>
    left
    obtain ⟨h1, h2⟩ := findColonSpace_some _ p hf
    refine ⟨p, h1, h2, ?_, ?_⟩
    · rw [htag.1, tagMsg_some line p hf]
    · rw [htag.2, tagMsg_some line p hf]
  | none =>
    have hnone := findColonSpace_none _ hf
    by_cases hlast : (afterLevelOf line).getLast? = some ':'
    · right; left
      refine ⟨hnone, hlast, ?_, ?_⟩
      · rw [htag.1, tagMsg_none_colon line hf hlast]
      · rw [htag.2, tagMsg_none_colon line hf hlast]
    · right; right
      have hmt := tagMsg_none_other line hf hlast
      have htag1 : r.tag = trim (afterLevelOf line) := by rw [htag.1, hmt]
      have hmsg1 : r.message = ([] : List Char) := by rw [htag.2, hmt]
      exact ⟨hnone, hlast, htag1.trans (trim_afterLevelOf line), hmsg1⟩

/-- C6 witness: on `c6WLine` (remainder `T: m`) the split falls in the
first case, at the first `": "`. -/
theorem C6_witness :
    (∃ p, isColonSpaceAt (afterLevelOf c6WLine) p ∧
      (∀ q < p, ¬ isColonSpaceAt (afterLevelOf c6WLine) q) ∧
      c6WRec.tag = trim ((afterLevelOf c6WLine).take p) ∧
      c6WRec.message = (afterLevelOf c6WLine).drop (p + 2)) ∨
    ((∀ q, ¬ isColonSpaceAt (afterLevelOf c6WLine) q) ∧
      (afterLevelOf c6WLine).getLast? = some ':' ∧
      c6WRec.tag = trim (afterLevelOf c6WLine).dropLast ∧
      c6WRec.message = []) ∨
    ((∀ q, ¬ isColonSpaceAt (afterLevelOf c6WLine) q) ∧
      (afterLevelOf c6WLine).getLast? ≠ some ':' ∧
      c6WRec.tag = afterLevelOf c6WLine ∧ c6WRec.message = []) :=
  C6_tag_message_split.1 c6WLine c6WRec (by decide)

/-! ## Lemmas for the ZIP reader (C2) -/

/-- If no position in the scan range holds the EOCD signature, the
backward scan fails. -/
theorem scanEocd_none (buf : List Nat) (i : Nat)
    (h : ∀ j, j ≤ i → readU32LE buf j ≠ 0x06054b50) :
    scanEocd buf i = none := by
  induction i with
  | zero => simp [scanEocd, h 0 (Nat.le_refl 0)]
  | succ i ih =>
    unfold scanEocd
    rw [if_neg (h (i + 1) (Nat.le_refl _))]
    exact ih (fun j hj => h j (by omega))

/-- An archive with no EOCD signature anywhere in the scan range has no
EOCD record. -/
theorem findEocd_none (buf : List Nat)
    (h : ∀ j, j + 22 ≤ buf.length → readU32LE buf j ≠ 0x06054b50) :
    findEocd buf = none := by
  unfold findEocd
  split_ifs with hl
  · exact scanEocd_none buf _ (fun j hj => h j (by omega))
  · rfl

/-- C2: `extractPackageName` never lets an exception reach its caller —
every `error` of the underlying pipeline is collapsed to `none` — and the
corrupt-archive classes all yield `none`: any archive without an EOCD
signature (for every inflate implementation), a central-directory record
with a bad `0x02014b50` magic, a local file header with a bad
`0x04034b50` magic, an entry compressed with a method other than 0 or 8,
and a truncated archive whose reads run out of bounds. -/
theorem C2_extract_error_handling :
    (∀ (inflate : List Nat → Except Unit (List Nat)) (buf : List Nat)
        (e : Unit), innerExtract inflate buf = .error e →
        extractPackageName inflate buf = none) ∧
    (∀ (inflate : List Nat → Except Unit (List Nat)) (buf : List Nat),
        (∀ j, j + 22 ≤ buf.length → readU32LE buf j ≠ 0x06054b50) →
        extractPackageName inflate buf = none) ∧
    extractPackageName inflErr zipBadCDMagic = none ∧
    extractPackageName inflErr zipBadLHMagic = none ∧
    extractPackageName inflErr zipBadMethod = none ∧
    extractPackageName inflErr zipTruncated = none := by
  refine ⟨?_, ?_, by decide, by decide, by decide, by decide⟩
  · intro inflate buf e h
    unfold extractPackageName
    rw [h]
  · intro inflate buf h
    have hz : readZipEntry inflate buf androidManifestName = .ok none := by
      unfold readZipEntry
      rw [findEocd_none buf h]
    have hi : innerExtract inflate buf = .ok none := by
      unfold innerExtract
      rw [hz]
      rfl
    unfold extractPackageName
    rw [hi]

/-- C2 witness: a 22-zero-byte buffer has no EOCD signature in its scan
range, so extraction yields `none`. -/
theorem C2_witness :
    extractPackageName inflErr (List.replicate 22 0) = none :=
  C2_extract_error_handling.2.1 inflErr (List.replicate 22 0)
    (by
      intro j hj
      have hj0 : j = 0 := by simpa using hj
      subst hj0
      decide)

/-! ## Lemmas for the binary-XML chunk walk (C8) -/

/-- If none of the `n` attributes from index `a` on is an in-bounds
attribute named `package`, the attribute loop returns `none`. -/
theorem attrLoop_no_package (buf : List Nat) (strings : List PoolStr)
    (pos : Nat) :
    ∀ (n a : Nat),
      (∀ k, k < n →
        ¬(pos + 36 + (a + k) * 20 + 20 ≤ buf.length ∧
          readU32LE buf (pos + 36 + (a + k) * 20 + 4) < strings.length ∧
          strings.getD (readU32LE buf (pos + 36 + (a + k) * 20 + 4)) [] =
            packageStr)) →
      attrLoop buf strings pos n a = none := by
  intro n
  induction n with
  | zero => intro a _; rfl
  | succ n ih =>
    intro a h
    unfold attrLoop
    by_cases hb : buf.length < pos + 36 + a * 20 + 20
    · rw [if_pos hb]
    · rw [if_neg hb]
      have h0 := h 0 (Nat.succ_pos n)
      simp only [Nat.add_zero] at h0
      have hnp : ¬(readU32LE buf (pos + 36 + a * 20 + 4) < strings.length ∧
          strings.getD (readU32LE buf (pos + 36 + a * 20 + 4)) [] =
            packageStr) := by
        intro hc
        exact h0 ⟨by omega, hc.1, hc.2⟩
      rw [if_neg hnp]
      refine ih (a + 1) ?_
      intro k hk
      have e : a + 1 + k = a + (k + 1) := by omega
      rw [e]
      exact h (k + 1) (by omega)

/-- If the attributes before index `a + m` are in bounds and none of them
is named `package`, while attribute `a + m` is an in-bounds `package`
attribute whose raw value resolves in the string pool, the attribute loop
returns that pooled string. -/
theorem attrLoop_first_package (buf : List Nat) (strings : List PoolStr)
    (pos : Nat) :
    ∀ (m n a : Nat), m < n →
      (∀ k, k < m →
        pos + 36 + (a + k) * 20 + 20 ≤ buf.length ∧
        ¬(readU32LE buf (pos + 36 + (a + k) * 20 + 4) < strings.length ∧
          strings.getD (readU32LE buf (pos + 36 + (a + k) * 20 + 4)) [] =
            packageStr)) →
      pos + 36 + (a + m) * 20 + 20 ≤ buf.length →
      readU32LE buf (pos + 36 + (a + m) * 20 + 4) < strings.length →
      strings.getD (readU32LE buf (pos + 36 + (a + m) * 20 + 4)) [] =
        packageStr →
      readU32LE buf (pos + 36 + (a + m) * 20 + 8) < strings.length →
      attrLoop buf strings pos n a =
        some (strings.getD (readU32LE buf (pos + 36 + (a + m) * 20 + 8))
          []) := by
  intro m
  induction m with
  | zero =>
    intro n a hmn _ hbnd hname1 hname2 hraw
    simp only [Nat.add_zero] at hbnd hname1 hname2 hraw ⊢
    cases n with
    | zero => omega
    | succ n =>
      unfold attrLoop
      rw [if_neg (by omega), if_pos ⟨hname1, hname2⟩, if_pos hraw]
  | succ m ih =>
    intro n a hmn hskip hbnd hname1 hname2 hraw
    cases n with
    | zero => omega
    | succ n =>
      unfold attrLoop
      have h0 := hskip 0 (Nat.succ_pos m)
      simp only [Nat.add_zero] at h0
      rw [if_neg (by omega), if_neg h0.2]
      have e : ∀ k : Nat, a + 1 + k = a + (k + 1) := fun k => by omega
      refine Eq.trans (ih n (a + 1) (by omega) ?_ ?_ ?_ ?_ ?_) ?_
      · intro k hk
        rw [e k]
        exact hskip (k + 1) (by omega)
      · rw [e m]; exact hbnd
      · rw [e m]; exact hname1
      · rw [e m]; exact hname2
      · rw [e m]; exact hraw
      · rw [e m]

/-- C8: the chunk walk of `parsePackageName` — a chunk whose declared
size is 0 terminates the scan; a chunk that is not a START_ELEMENT is
skipped by advancing exactly its declared size; a START_ELEMENT resolving
to `manifest` hands over to the attribute loop and never scans further
chunks (the result does not depend on the remaining fuel); within that
loop, no in-bounds attribute named `package` means `none` immediately,
and the first `package` attribute (with a pool-resolvable raw value)
yields the returned value. -/
theorem C8_chunk_walk :
    (∀ (buf : List Nat) (strings : List PoolStr) (fuel pos : Nat),
      pos + 8 ≤ buf.length → readU32LE buf (pos + 4) = 0 →
      walkChunks buf strings (fuel + 1) pos = none) ∧
    (∀ (buf : List Nat) (strings : List PoolStr) (fuel pos : Nat),
      pos + 8 ≤ buf.length → readU16LE buf pos ≠ 0x0102 →
      readU32LE buf (pos + 4) ≠ 0 →
      walkChunks buf strings (fuel + 1) pos =
        walkChunks buf strings fuel (pos + readU32LE buf (pos + 4))) ∧
    (∀ (buf : List Nat) (strings : List PoolStr) (fuel pos : Nat),
      pos + 8 ≤ buf.length → readU32LE buf (pos + 4) ≠ 0 →
      readU16LE buf pos = 0x0102 → pos + 36 ≤ buf.length →
      readU32LE buf (pos + 20) < strings.length →
      strings.getD (readU32LE buf (pos + 20)) [] = manifestStr →
      walkChunks buf strings (fuel + 1) pos =
        attrLoop buf strings pos (readU16LE buf (pos + 28)) 0) ∧
    (∀ (buf : List Nat) (strings : List PoolStr) (pos n a : Nat),
      (∀ k, k < n →
        ¬(pos + 36 + (a + k) * 20 + 20 ≤ buf.length ∧
          readU32LE buf (pos + 36 + (a + k) * 20 + 4) < strings.length ∧
          strings.getD (readU32LE buf (pos + 36 + (a + k) * 20 + 4)) [] =
            packageStr)) →
      attrLoop buf strings pos n a = none) ∧
    (∀ (buf : List Nat) (strings : List PoolStr) (pos m n a : Nat),
      m < n →
      (∀ k, k < m →
        pos + 36 + (a + k) * 20 + 20 ≤ buf.length ∧
        ¬(readU32LE buf (pos + 36 + (a + k) * 20 + 4) < strings.length ∧
          strings.getD (readU32LE buf (pos + 36 + (a + k) * 20 + 4)) [] =
            packageStr)) →
      pos + 36 + (a + m) * 20 + 20 ≤ buf.length →
      readU32LE buf (pos + 36 + (a + m) * 20 + 4) < strings.length →
      strings.getD (readU32LE buf (pos + 36 + (a + m) * 20 + 4)) [] =
        packageStr →
      readU32LE buf (pos + 36 + (a + m) * 20 + 8) < strings.length →
      attrLoop buf strings pos n a =
        some (strings.getD (readU32LE buf (pos + 36 + (a + m) * 20 + 8))
          [])) := by
  refine ⟨?_, ?_, ?_, attrLoop_no_package, attrLoop_first_package⟩
  · intro buf strings fuel pos hin hz
    unfold walkChunks
    rw [if_pos hin, if_pos hz]
  · intro buf strings fuel pos hin ht hz
    conv_lhs => rw [walkChunks]
    rw [if_pos hin, if_neg hz, if_neg (fun hc => ht hc.1)]
  · intro buf strings fuel pos hin hz ht h36 hn1 hn2
    unfold walkChunks
    rw [if_pos hin, if_neg hz, if_pos ⟨ht, h36⟩, if_pos ⟨hn1, hn2⟩]

/-- C8 witness: an 8-zero-byte buffer starts with a chunk of declared
size 0, terminating the scan with `none`. -/
theorem C8_witness : walkChunks (List.replicate 8 0) [] 1 0 = none :=
  C8_chunk_walk.1 (List.replicate 8 0) [] 0 0 (by decide) (by decide)

end AdbTool
